import Mathlib

/-!
# Verification of the tgscrap extraction-and-classification pipeline

Shallow embedding of the decision logic of `main.py` and
`extract_configs.py`: the multi-stage config classifier
(`detect_config_in_text`), the chronological orderer
(`order_results_newest_first`), the view-count parsing, the construction of
the persisted matched items, and the per-channel output-file lifecycle
(`write_filtered_file`).

Strings are modelled as `String` / `List Char`; the regular expressions of
the source are modelled by explicit scanning functions over `List Char`.
The character classes `\w`, `\s` and `\d` are modelled in their ASCII
reading, whereas Python applies them Unicode-aware on `str`; every theorem
whose truth at an input depends on how one of these classes reads a
character therefore carries an explicit ASCII side condition
(`TG.allAscii`, or an `TG.isAsciiNonWord` predecessor inside a
word-boundary condition) confining it to inputs on which the ASCII
reading provably coincides with Python's.
-/

namespace TG

/-- ASCII reading of the regex word-character class `\w`
(`[A-Za-z0-9_]`), used by the word-boundary assertion `\b`.  Python's
`\w` on `str` is Unicode-aware and also accepts non-ASCII word
characters, so theorems that rely on a character being a non-word
character demand an ASCII one (`isAsciiNonWord`), where the two readings
agree. -/
def isWordChar (c : Char) : Bool := c.isAlphanum || c == '_'

/-- ASCII reading of the regex whitespace class `\s`
(`[ \t\n\r\x0b\x0c]`).  Python's `\s` on `str` additionally covers
Unicode whitespace such as U+00A0, so theorems that rely on where an
`HTTP_RX` URL run stops are guarded by `allAscii`. -/
def isSpaceChar (c : Char) : Bool :=
  c == ' ' || c == '\t' || c == '\n' || c == '\r' || c == '\x0b' || c == '\x0c'

/-- The base64 alphabet `[A-Za-z0-9+/]` of `BASE64_LONG_RX`. -/
def isB64Char (c : Char) : Bool := c.isAlpha || c.isDigit || c == '+' || c == '/'

/-- A character allowed inside an `http://` URL by `HTTP_RX`:
the class `[^\s'"<>]` (inheriting the ASCII reading of `\s` from
`isSpaceChar`). -/
def urlOkChar (c : Char) : Bool :=
  !(isSpaceChar c || c == '\'' || c == '"' || c == '<' || c == '>')

/-- `leadsWith p l` : `p` is an initial segment of `l`. -/
def leadsWith : List Char → List Char → Bool
  | [], _ => true
  | _ :: _, [] => false
  | p :: ps, c :: cs => p == c && leadsWith ps cs

/-- `hasSub p l` : `p` occurs as a contiguous substring of `l`
(model of an unanchored `re.search` for a literal pattern). -/
def hasSub (p : List Char) : List Char → Bool
  | [] => leadsWith p []
  | c :: cs => leadsWith p (c :: cs) || hasSub p cs

/-- Case-insensitive search for any one of the literal alternatives `pats`
(model of `re.search` with a pattern `(?i)(p1|p2|...)`, as in
`HTTP_CONTAINS_SCHEME_RX`). -/
def keywordSearch (pats : List String) (l : List Char) : Bool :=
  pats.any fun p => hasSub p.toList (l.map Char.toLower)

/-- Scanner for `BASE64_LONG_RX = [A-Za-z0-9+/]{40,}={0,2}`: `n` counts the
current run of base64-alphabet characters.  A match exists iff some run
reaches length 40 (the optional `=` padding never decides existence). -/
def b64Aux : Nat → List Char → Bool
  | _, [] => false
  | n, c :: cs =>
    let m := if isB64Char c then n + 1 else 0
    m ≥ 40 || b64Aux m cs

/-- `re.search(BASE64_LONG_RX, l)` as a boolean. -/
def hasB64Run (l : List Char) : Bool := b64Aux 0 l

/-- Word-boundary test of `\b` placed before a word character, given the
character preceding the current position (`none` at the start of the
text). -/
def bOK : Option Char → Bool
  | none => true
  | some p => !isWordChar p

/-- Case-insensitive anchored match of the ASCII literal `pat` at the head
of `l`. -/
def hereCI (pat : List Char) (l : List Char) : Bool :=
  leadsWith pat ((l.take pat.length).map Char.toLower)

/-- One alternative of `PRIMARY_RX`: some scheme of `schemes`, followed by
`://`, matches at the head of `l` (case-insensitively). -/
def schemeAt (schemes : List String) (l : List Char) : Bool :=
  schemes.any fun s => hereCI (s ++ "://").toList l

/-- Scan for `PRIMARY_RX = (?i)\b(<schemes>)://`, tracking the previous
character for the `\b` test.  (Schemes start with an ASCII letter, so `\b`
holds exactly when the preceding character is absent or not a word
character.) -/
def primaryAux (schemes : List String) : Option Char → List Char → Bool
  | _, [] => false
  | prev, c :: cs =>
    (bOK prev && schemeAt schemes (c :: cs)) || primaryAux schemes (some c) cs

/-- `PRIMARY_RX.search(l)` as a boolean. -/
def primarySearch (schemes : List String) (l : List Char) : Bool :=
  primaryAux schemes none l

/-- The literal part of `HTTP_RX`. -/
def httpPat : List Char := "http://".toList

/-- `HTTP_RX.finditer(text)`: the non-overlapping, left-to-right, greedy
matches of `(?i)\bhttp://[^\s'"<>]+`, each as (start position, matched
text).  After a successful match the scan resumes at the match's end, as
`finditer` does.  `fuel` is an upper bound on the remaining text length
(supplied as the full length by `httpMatches`), making the recursion
structural. -/
def httpAux : Nat → Option Char → Nat → List Char → List (Nat × List Char)
  | 0, _, _, _ => []
  | _ + 1, _, _, [] => []
  | fuel + 1, prev, pos, c :: cs =>
    if bOK prev && hereCI httpPat (c :: cs) then
      let rest := (c :: cs).drop 7
      let run := rest.takeWhile urlOkChar
      if run.isEmpty then httpAux fuel (some c) (pos + 1) cs
      else
        (pos, (c :: cs).take (7 + run.length)) ::
          httpAux fuel (some (run.getLastD ' ')) (pos + 7 + run.length)
            (rest.drop run.length)
    else httpAux fuel (some c) (pos + 1) cs

/-- All matches of `HTTP_RX` in `l`. -/
def httpMatches (l : List Char) : List (Nat × List Char) :=
  httpAux l.length none 0 l

/-- The context slice `text[max(s-50,0) : min(e+50, len(text))]` inspected
around an `HTTP_RX` match spanning `[s, e)`. -/
def window (l : List Char) (s e : Nat) : List Char :=
  (l.drop (s - 50)).take (min (e + 50) l.length - (s - 50))

end TG

namespace MainPy

/-- `PRIMARY_SCHEMES` of `main.py`. -/
def PRIMARY_SCHEMES : List String :=
  ["vmess", "ss", "socks", "vless", "trojan", "wireguard", "hysteria2"]

/-- The alternatives of `HTTP_CONTAINS_SCHEME_RX` of `main.py`. -/
def SCHEME_KEYWORDS : List String :=
  ["vmess", "vless", "trojan", "ss", "socks", "hysteria", "wireguard"]

/-- `detect_config_in_text` of `main.py`: direct-scheme match, else for
each `http://` match test the URL for a scheme keyword, then for a long
base64 run, then test the ±50-character context window for either. -/
def detect_config_in_text (text : String) : Bool :=
  let cs := text.toList
  if cs.isEmpty then false
  else if TG.primarySearch PRIMARY_SCHEMES cs then true
  else
    (TG.httpMatches cs).any fun m =>
      TG.keywordSearch SCHEME_KEYWORDS m.2 || TG.hasB64Run m.2 ||
        (let ctx := TG.window cs m.1 (m.1 + m.2.length)
         TG.keywordSearch SCHEME_KEYWORDS ctx || TG.hasB64Run ctx)

end MainPy

namespace ExtractPy

/-- `PRIMARY_SCHEMES` of `extract_configs.py`. -/
def PRIMARY_SCHEMES : List String :=
  ["vmess", "ss", "socks", "vless", "trojan", "wireguard", "hysteria2"]

/-- The alternatives of `HTTP_CONTAINS_SCHEME_RX` of `extract_configs.py`. -/
def SCHEME_KEYWORDS : List String :=
  ["vmess", "vless", "trojan", "ss", "socks", "hysteria", "wireguard"]

/-- `detect_config_in_text` of `extract_configs.py`. -/
def detect_config_in_text (text : String) : Bool :=
  let cs := text.toList
  if cs.isEmpty then false
  else if TG.primarySearch PRIMARY_SCHEMES cs then true
  else
    (TG.httpMatches cs).any fun m =>
      TG.keywordSearch SCHEME_KEYWORDS m.2 || TG.hasB64Run m.2 ||
        (let ctx := TG.window cs m.1 (m.1 + m.2.length)
         TG.keywordSearch SCHEME_KEYWORDS ctx || TG.hasB64Run ctx)

end ExtractPy

namespace TG

/-- Stable insertion step used to model Python's `sorted(..., key=key,
reverse=True)`: `x` (coming earlier in the input than every element of the
accumulator) is placed before the first element whose key is not `≥ key x`,
so equal keys keep their input order and keys are non-increasing. -/
def insertDesc {α : Type} (key : α → String) (x : α) : List α → List α
  | [] => [x]
  | y :: ys => if key y ≤ key x then x :: y :: ys else y :: insertDesc key x ys

/-- The stable descending sort denoted by
`sorted(..., key=key, reverse=True)` (Python's sort is stable, and
`reverse=True` preserves stability). -/
def sortDesc {α : Type} (key : α → String) : List α → List α
  | [] => []
  | x :: xs => insertDesc key x (sortDesc key xs)

end TG

namespace MainPy

/-- The `author` sub-dictionary of a scraped entry. -/
structure Author where
  name : String
  href : Option String
  photo_src : Option String
deriving DecidableEq, Repr

/-- One reaction row as built by `parse_reactions`. -/
structure Reaction where
  emoji : Option String
  count : Option String
  raws : String
deriving DecidableEq, Repr

/-- The `views` field of an entry: `None`, an `int`, or the original
visible string when digit-stripping left nothing for `int` to parse. -/
inductive Views where
  | null : Views
  | num : Nat → Views
  | str : String → Views
deriving DecidableEq, Repr

/-- One scraped message entry as built by `scrape_channel`. -/
structure Record where
  index : Nat
  post : Option String
  data_view : Option String
  author : Author
  message_text : String
  message_html : String
  views : Views
  time_iso : Option String
  reactions : List Reaction
deriving DecidableEq, Repr

/-- `re.sub(r"[^\d]", "", vt)` with the ASCII reading of `\d`.  Python's
`\d` on `str` also keeps Unicode decimal digits (which `int` then
converts), so the view-count theorem is guarded by `TG.allAscii`. -/
def stripNonDigits (vt : String) : List Char := vt.toList.filter Char.isDigit

/-- Value of an ASCII digit string, as computed by `int(...)`. -/
def digitsToNat (l : List Char) : Nat :=
  l.foldl (fun acc c => acc * 10 + (c.toNat - '0'.toNat)) 0

/-- The view-count logic of `scrape_channel`: the argument is the visible
text `safe_text(views_el)` when the views element is present, and
`Option.none` when it is absent.  Mirrors
`views = int(re.sub(r"[^\d]", "", vt)) if vt else None` inside
`try/except` (with `views = vt` on failure), where `int` fails exactly
when the stripped text is empty. -/
def parse_views : Option String → Views
  | Option.none => Views.null
  | Option.some vt =>
    if vt == "" then Views.null
    else
      let ds := stripNonDigits vt
      if ds.isEmpty then Views.str vt
      else Views.num (digitsToNat ds)

/-- Python truthiness `bool(r.get("time_iso"))`: present and non-empty. -/
def timeTruthy (r : Record) : Bool :=
  match r.time_iso with
  | Option.none => false
  | Option.some s => !(s == "")

/-- The sort key `_key` of `order_results_newest_first`:
`r.get("time_iso") or ""`. -/
def timeKey (r : Record) : String := r.time_iso.getD ""

/-- The reindexing loop
`for i, r in enumerate(ordered, start=1): r["index"] = i`. -/
def reindexFrom (i : Nat) : List Record → List Record
  | [] => []
  | r :: rs => { r with index := i } :: reindexFrom (i + 1) rs

/-- `order_results_newest_first` of `main.py`. -/
def order_results_newest_first (results : List Record) : List Record :=
  if results.isEmpty then results
  else
    let ordered :=
      if results.any timeTruthy then TG.sortDesc timeKey results
      else results.reverse
    reindexFrom 1 ordered

/-- One element of `matched_items` in `main()` of `main.py` (the persisted
output row). -/
structure ClassifiedItem where
  index : Nat
  post : Option String
  time_iso : Option String
  author : Author
  source : Option String
  message_text : String
  message_html : String
  views : Views
  reactions : List Reaction
deriving DecidableEq, Repr

/-- The `matched_items` construction loop of `main()` in `main.py`:
`msg_text = entry.get("message_text") or entry.get("message") or ""` (a
`Record` carries no `"message"` key, so a falsy `message_text` yields
`""`), keep the entry iff `detect_config_in_text(msg_text)`, projecting
`source = author.get("href") if isinstance(author.get("href"), str) else
None`. -/
def build_matched_items : List Record → List ClassifiedItem
  | [] => []
  | entry :: rest =>
    let msg_text := if entry.message_text == "" then "" else entry.message_text
    if detect_config_in_text msg_text then
      { index := entry.index, post := entry.post, time_iso := entry.time_iso,
        author := entry.author, source := entry.author.href,
        message_text := msg_text, message_html := entry.message_html,
        views := entry.views, reactions := entry.reactions } ::
        build_matched_items rest
    else build_matched_items rest

/-- The output directory, as a map from file path to the persisted array
of items (a file's contents are modelled as the array written to it). -/
def DirState : Type := String → Option (List ClassifiedItem)

/-- `os.path.join(raws_dir, f"{base}.json")`. -/
def out_path (raws_dir base : String) : String :=
  raws_dir ++ "/" ++ base ++ ".json"

/-- `write_filtered_file` of `main.py`: a non-empty `matched_items` is
written as the complete new contents of the channel's file; with an empty
`matched_items` an existing file at the path is removed
(`os.path.exists` then `os.remove`) and a missing one is left alone. -/
def write_filtered_file (fs : DirState) (raws_dir base : String)
    (matched_items : List ClassifiedItem) : DirState :=
  let p := out_path raws_dir base
  if matched_items.isEmpty then
    match fs p with
    | Option.some _ => fun q => if q == p then Option.none else fs q
    | Option.none => fs
  else
    fun q => if q == p then Option.some matched_items else fs q

end MainPy

namespace ExtractPy

/-- One row written to `configs/<base>_config.json` by
`process_raw_dir`. -/
structure ConfigItem where
  message_text : String
  source : Option String
deriving DecidableEq, Repr

/-- The matched-item loop of `process_raw_dir` over one parsed input
array, with entries modelled in the shape `main.py` writes:
`msg_text = entry.get("message_text") or entry.get("message") or ""`,
keep iff `detect_config_in_text(msg_text)`, and
`source = author.get("href") if isinstance(author.get("href"), str) else
None`. -/
def build_matched_items : List MainPy.ClassifiedItem → List ConfigItem
  | [] => []
  | entry :: rest =>
    let msg_text := if entry.message_text == "" then "" else entry.message_text
    if detect_config_in_text msg_text then
      { message_text := msg_text, source := entry.author.href } ::
        build_matched_items rest
    else build_matched_items rest

end ExtractPy

namespace TG

/-- The character preceding position `i` of `cs` during a scan that
started with preceding character `prev` (`Option.none` at the start of
the text): used to phrase the `\b` word-boundary condition. -/
def prevAt (prev : Option Char) (cs : List Char) : Nat → Option Char
  | 0 => prev
  | i + 1 => cs.get? i

/-- An ASCII character that is not a word character.  On ASCII characters
the ASCII reading of `\w` agrees with Python's Unicode-aware reading, so
a position immediately after such a character is a genuine `\b` word
boundary before a letter, in the model and in the source alike. -/
def isAsciiNonWord (c : Char) : Bool := c.toNat < 128 && !isWordChar c

/-- All characters of `s` are ASCII: the domain on which the ASCII
reading of the character classes `\w`, `\s` and `\d` coincides with
Python's Unicode-aware reading, so the scanning functions here compute
exactly what the source's regexes match. -/
def allAscii (s : String) : Bool := s.toList.all fun c => c.toNat < 128

end TG

namespace MainPy

/-- A concrete author value for test records. -/
def anAuthor : Author :=
  { name := "a", href := Option.some "https://t.me/chan", photo_src := Option.none }

/-- Concrete record builder for test inputs. -/
def mkRec (i : Nat) (t : Option String) (msg : String) : Record :=
  { index := i, post := Option.none, data_view := Option.none, author := anAuthor,
    message_text := msg, message_html := "", views := Views.null,
    time_iso := t, reactions := [] }

/-- Test input: two timestamped records (out of order) and one without a
timestamp. -/
def c2in : List Record :=
  [mkRec 1 (Option.some "2025-01-02T00:00:00+00:00") "a",
   mkRec 2 (Option.some "2025-01-03T00:00:00+00:00") "b",
   mkRec 3 Option.none "c"]

/-- Test input: no record has a timestamp. -/
def c5in : List Record := [mkRec 1 Option.none "a", mkRec 2 Option.none "b"]

/-- Test input: after reversal the config-bearing record sits at index 2,
and the non-config record at index 1 is filtered out. -/
def c10in : List Record := [mkRec 1 Option.none "vmess://abc", mkRec 2 Option.none "hello"]

/-- A concrete persisted item for the file-lifecycle test. -/
def anItem : ClassifiedItem :=
  { index := 1, post := Option.none, time_iso := Option.none, author := anAuthor,
    source := Option.some "https://t.me/chan", message_text := "vmess://abc",
    message_html := "", views := Views.null, reactions := [] }

/-- A concrete starting directory state holding one output file. -/
def aDir : DirState :=
  fun q => if q == "raws/a.json" then Option.some [anItem] else Option.none

/-- Erase the positional index of a record, for comparisons that ignore
the reassigned `index` field. -/
def clearIndex (r : Record) : Record := { r with index := 0 }

end MainPy

namespace TG

theorem leadsWith_le_length : ∀ p l : List Char, leadsWith p l = true → p.length ≤ l.length := by
  intro p
  induction p with
  | nil => intro l _; exact Nat.zero_le _
  | cons a p ih =>
    intro l h
    cases l with
    | nil => simp [leadsWith] at h
    | cons c cs =>
      simp only [leadsWith, Bool.and_eq_true] at h
      simpa [List.length_cons, Nat.succ_le_succ_iff] using ih cs h.2

theorem leadsWith_append_elim (p q : List Char) :
    ∀ l : List Char, leadsWith (p ++ q) l = true → leadsWith p l = true := by
  induction p with
  | nil => intro l _; rfl
  | cons a p ih =>
    intro l h
    cases l with
    | nil => simp [leadsWith] at h
    | cons c cs =>
      simp only [List.cons_append, leadsWith, Bool.and_eq_true] at h ⊢
      exact ⟨h.1, ih cs h.2⟩

theorem hasSub_of_append (p q : List Char) :
    ∀ l : List Char, hasSub (p ++ q) l = true → hasSub p l = true := by
  intro l
  induction l with
  | nil =>
    intro h
    cases p with
    | nil => rfl
    | cons a ps =>
      simp only [hasSub, List.cons_append, leadsWith] at h
      exact Bool.noConfusion h
  | cons c cs ih =>
    intro h
    simp only [hasSub, Bool.or_eq_true] at h ⊢
    rcases h with h | h
    · exact Or.inl (leadsWith_append_elim p q _ h)
    · exact Or.inr (ih h)

theorem insertDesc_perm {α : Type} (key : α → String) (x : α) (l : List α) :
    List.Perm (insertDesc key x l) (x :: l) := by
  induction l with
  | nil => exact List.Perm.refl _
  | cons y ys ih =>
    simp only [insertDesc]
    split
    · exact List.Perm.refl _
    · exact (ih.cons y).trans (List.Perm.swap x y ys)

theorem sortDesc_perm {α : Type} (key : α → String) (l : List α) :
    List.Perm (sortDesc key l) l := by
  induction l with
  | nil => exact List.Perm.refl _
  | cons x xs ih => exact (insertDesc_perm key x _).trans (ih.cons x)

theorem insertDesc_pairwise {α : Type} (key : α → String) (x : α) (l : List α)
    (h : l.Pairwise fun a b => key b ≤ key a) :
    (insertDesc key x l).Pairwise fun a b => key b ≤ key a := by
  induction l with
  | nil => simp [insertDesc]
  | cons y ys ih =>
    rcases List.pairwise_cons.mp h with ⟨hy, hys⟩
    simp only [insertDesc]
    split
    · next hle =>
      refine List.pairwise_cons.mpr ⟨?_, h⟩
      intro z hz
      rcases List.mem_cons.mp hz with rfl | hzys
      · exact hle
      · exact le_trans (hy z hzys) hle
    · next hle =>
      have hxy : key x ≤ key y := le_of_not_le hle
      refine List.pairwise_cons.mpr ⟨?_, ih hys⟩
      intro z hz
      rcases List.mem_cons.mp ((insertDesc_perm key x ys).mem_iff.mp hz) with rfl | hzys
      · exact hxy
      · exact hy z hzys

theorem sortDesc_pairwise {α : Type} (key : α → String) (l : List α) :
    (sortDesc key l).Pairwise fun a b => key b ≤ key a := by
  induction l with
  | nil => exact List.Pairwise.nil
  | cons x xs ih => exact insertDesc_pairwise key x _ ih

theorem insertDesc_filter_eq {α : Type} (key : α → String) (x : α) (l : List α)
    (k : String) (hx : key x = k) :
    (insertDesc key x l).filter (fun r => key r == k) =
      x :: l.filter (fun r => key r == k) := by
  induction l with
  | nil => simp [insertDesc, List.filter, hx]
  | cons y ys ih =>
    simp only [insertDesc]
    split
    · simp [List.filter_cons, hx]
    · next hle =>
      have hky : ¬ (key y = k) := by
        intro hk
        exact hle (le_of_eq (hk.trans hx.symm))
      simp [List.filter_cons, hky, ih]

theorem insertDesc_filter_ne {α : Type} (key : α → String) (x : α) (l : List α)
    (k : String) (hx : ¬ (key x = k)) :
    (insertDesc key x l).filter (fun r => key r == k) =
      l.filter (fun r => key r == k) := by
  induction l with
  | nil =>
    have hb : (key x == k) = false := by simp [hx]
    simp [insertDesc, List.filter, hb]
  | cons y ys ih =>
    simp only [insertDesc]
    split
    · simp [List.filter_cons, hx]
    · simp [List.filter_cons, ih]

theorem sortDesc_filter {α : Type} (key : α → String) (l : List α) (k : String) :
    (sortDesc key l).filter (fun r => key r == k) =
      l.filter (fun r => key r == k) := by
  induction l with
  | nil => rfl
  | cons x xs ih =>
    by_cases hx : key x = k
    · rw [sortDesc, insertDesc_filter_eq key x _ k hx, ih]
      simp [List.filter_cons, hx]
    · rw [sortDesc, insertDesc_filter_ne key x _ k hx, ih]
      simp [List.filter_cons, hx]

end TG

namespace MainPy

theorem reindexFrom_map_timeKey (i : Nat) (l : List Record) :
    (reindexFrom i l).map timeKey = l.map timeKey := by
  induction l generalizing i with
  | nil => rfl
  | cons r rs ih => simp [reindexFrom, timeKey, ih]

theorem reindexFrom_map_index (i : Nat) (l : List Record) :
    (reindexFrom i l).map Record.index = List.range' i l.length := by
  induction l generalizing i with
  | nil => rfl
  | cons r rs ih => simp [reindexFrom, ih, List.range'_succ]

theorem reindexFrom_map_clearIndex (i : Nat) (l : List Record) :
    (reindexFrom i l).map clearIndex = l.map clearIndex := by
  induction l generalizing i with
  | nil => rfl
  | cons r rs ih => simp [reindexFrom, clearIndex, ih]

theorem reindexFrom_filter_timeKey (i : Nat) (l : List Record) (k : String) :
    ((reindexFrom i l).filter (fun r => timeKey r == k)).map clearIndex =
      (l.filter (fun r => timeKey r == k)).map clearIndex := by
  induction l generalizing i with
  | nil => rfl
  | cons r rs ih =>
    simp only [reindexFrom, List.filter_cons]
    have hk : timeKey { r with index := i } = timeKey r := rfl
    rw [hk]
    split
    · simp only [List.map_cons, ih (i + 1)]
      rfl
    · exact ih (i + 1)

theorem order_map_index (results : List Record) :
    (order_results_newest_first results).map Record.index =
      List.range' 1 results.length := by
  unfold order_results_newest_first
  cases results with
  | nil => rfl
  | cons r rs =>
    simp only [List.isEmpty_cons, Bool.false_eq_true, if_false]
    split
    · rw [reindexFrom_map_index]
      congr 1
      exact (TG.sortDesc_perm timeKey (r :: rs)).length_eq
    · rw [reindexFrom_map_index, List.length_reverse]

end MainPy

/-- C2: for every non-empty input in which some record has a non-empty
timestamp, the orderer's output is a permutation of the input (ignoring
the reassigned `index`), the output's timestamp keys (empty string for a
missing timestamp) are non-increasing, records with equal keys keep their
relative input order (stability), and the output `index` fields are
exactly `1..N` in output order. -/
theorem claim_C2_orderer_stable_sort (results : List MainPy.Record)
    (hne : results ≠ []) (ht : results.any MainPy.timeTruthy = true) :
    List.Perm ((MainPy.order_results_newest_first results).map MainPy.clearIndex)
        (results.map MainPy.clearIndex) ∧
    ((MainPy.order_results_newest_first results).map MainPy.timeKey).Pairwise
        (fun a b => b ≤ a) ∧
    (∀ k : String,
        ((MainPy.order_results_newest_first results).filter
            (fun r => MainPy.timeKey r == k)).map MainPy.clearIndex =
          (results.filter (fun r => MainPy.timeKey r == k)).map MainPy.clearIndex) ∧
    (MainPy.order_results_newest_first results).map MainPy.Record.index =
      List.range' 1 results.length := by
  have horder : MainPy.order_results_newest_first results =
      MainPy.reindexFrom 1 (TG.sortDesc MainPy.timeKey results) := by
    unfold MainPy.order_results_newest_first
    cases results with
    | nil => exact absurd rfl hne
    | cons r rs => simp [ht]
  refine ⟨?_, ?_, ?_, MainPy.order_map_index results⟩
  · rw [horder, MainPy.reindexFrom_map_clearIndex]
    exact (TG.sortDesc_perm MainPy.timeKey results).map MainPy.clearIndex
  · rw [horder, MainPy.reindexFrom_map_timeKey]
    exact List.pairwise_map.mpr (TG.sortDesc_pairwise MainPy.timeKey results)
  · intro k
    rw [horder, MainPy.reindexFrom_filter_timeKey, TG.sortDesc_filter]

/-- Witness for C2 at the spec's example input: two timestamped records
out of order plus one record without a timestamp. -/
theorem claim_C2_witness :
    (MainPy.c2in ≠ [] ∧ MainPy.c2in.any MainPy.timeTruthy = true) ∧
    (List.Perm ((MainPy.order_results_newest_first MainPy.c2in).map MainPy.clearIndex)
        (MainPy.c2in.map MainPy.clearIndex) ∧
     ((MainPy.order_results_newest_first MainPy.c2in).map MainPy.timeKey).Pairwise
        (fun a b => b ≤ a) ∧
     (∀ k : String,
        ((MainPy.order_results_newest_first MainPy.c2in).filter
            (fun r => MainPy.timeKey r == k)).map MainPy.clearIndex =
          (MainPy.c2in.filter (fun r => MainPy.timeKey r == k)).map MainPy.clearIndex) ∧
     (MainPy.order_results_newest_first MainPy.c2in).map MainPy.Record.index =
       List.range' 1 MainPy.c2in.length) :=
  ⟨⟨by decide, by decide⟩, claim_C2_orderer_stable_sort MainPy.c2in (by decide) (by decide)⟩

/-- C5: when no record has a non-empty timestamp, the orderer's output is
the exact reverse of the input (ignoring the reassigned `index`), and the
output `index` fields are exactly `1..N` in output order. -/
theorem claim_C5_reverse_when_no_timestamps (results : List MainPy.Record)
    (ht : results.any MainPy.timeTruthy = false) :
    (MainPy.order_results_newest_first results).map MainPy.clearIndex =
      results.reverse.map MainPy.clearIndex ∧
    (MainPy.order_results_newest_first results).map MainPy.Record.index =
      List.range' 1 results.length := by
  refine ⟨?_, MainPy.order_map_index results⟩
  unfold MainPy.order_results_newest_first
  cases results with
  | nil => rfl
  | cons r rs =>
    simp only [List.isEmpty_cons, Bool.false_eq_true, if_false, ht,
      MainPy.reindexFrom_map_clearIndex]

/-- Witness for C5 at a concrete two-record input without timestamps. -/
theorem claim_C5_witness :
    (MainPy.c5in.any MainPy.timeTruthy = false) ∧
    ((MainPy.order_results_newest_first MainPy.c5in).map MainPy.clearIndex =
        MainPy.c5in.reverse.map MainPy.clearIndex ∧
     (MainPy.order_results_newest_first MainPy.c5in).map MainPy.Record.index =
       List.range' 1 MainPy.c5in.length) :=
  ⟨by decide, claim_C5_reverse_when_no_timestamps MainPy.c5in (by decide)⟩

namespace MainPy

theorem build_map_index_sublist (l : List Record) :
    List.Sublist ((build_matched_items l).map ClassifiedItem.index)
      (l.map Record.index) := by
  induction l with
  | nil => exact List.Sublist.refl _
  | cons entry rest ih =>
    simp only [build_matched_items]
    split
    · split
      · simpa using List.Sublist.cons₂ entry.index ih
      · simpa using List.Sublist.cons entry.index ih
    · split
      · simpa using List.Sublist.cons₂ entry.index ih
      · simpa using List.Sublist.cons entry.index ih

theorem detect_config_empty : detect_config_in_text "" = false := rfl

end MainPy

namespace ExtractPy

theorem detect_config_empty_ec : detect_config_in_text "" = false := rfl

end ExtractPy

/-- C10: the `index` fields of the persisted items are strictly increasing
in file order (each retained item keeps the index assigned in the full
ordered sequence), but they are not in general the contiguous `1..N`:
at the concrete input `c10in` the one retained item has index 2. -/
theorem claim_C10_indices_increasing_not_contiguous :
    (∀ results : List MainPy.Record,
        ((MainPy.build_matched_items
            (MainPy.order_results_newest_first results)).map
          MainPy.ClassifiedItem.index).Pairwise (· < ·)) ∧
    (MainPy.build_matched_items
        (MainPy.order_results_newest_first MainPy.c10in)).map
      MainPy.ClassifiedItem.index = [2] ∧
    (MainPy.build_matched_items
        (MainPy.order_results_newest_first MainPy.c10in)).map
      MainPy.ClassifiedItem.index ≠
      List.range' 1 (MainPy.build_matched_items
        (MainPy.order_results_newest_first MainPy.c10in)).length := by
  refine ⟨?_, by decide, by decide⟩
  intro results
  have hsub := MainPy.build_map_index_sublist
    (MainPy.order_results_newest_first results)
  rw [MainPy.order_map_index] at hsub
  exact List.Pairwise.sublist hsub (List.pairwise_lt_range' 1 results.length)

/-- C8: the persisted rows carry `message_text` byte-for-byte unchanged:
in both pipelines the sequence of persisted `message_text` values equals
the sequence of `message_text` values of exactly the classifier-positive
input records.  (Classification is a pure function of the body in this
model, as in the source, where strings are immutable.) -/
theorem claim_C8_bodyText_never_transformed :
    (∀ ordered : List MainPy.Record,
        (MainPy.build_matched_items ordered).map
            MainPy.ClassifiedItem.message_text =
          (ordered.filter fun e =>
              MainPy.detect_config_in_text e.message_text).map
            MainPy.Record.message_text) ∧
    (∀ data : List MainPy.ClassifiedItem,
        (ExtractPy.build_matched_items data).map
            ExtractPy.ConfigItem.message_text =
          (data.filter fun e =>
              ExtractPy.detect_config_in_text e.message_text).map
            MainPy.ClassifiedItem.message_text) := by
  constructor
  · intro ordered
    induction ordered with
    | nil => rfl
    | cons entry rest ih =>
      simp only [MainPy.build_matched_items, List.filter_cons]
      by_cases h : entry.message_text = ""
      · rw [h]
        simp [MainPy.detect_config_empty, ih]
      · have hb : (entry.message_text == "") = false := by simp [h]
        by_cases hd : MainPy.detect_config_in_text entry.message_text
        · simp [hb, hd, ih]
        · simp [hb, hd, ih]
  · intro data
    induction data with
    | nil => rfl
    | cons entry rest ih =>
      simp only [ExtractPy.build_matched_items, List.filter_cons]
      by_cases h : entry.message_text = ""
      · rw [h]
        simp [ExtractPy.detect_config_empty_ec, ih]
      · have hb : (entry.message_text == "") = false := by simp [h]
        by_cases hd : ExtractPy.detect_config_in_text entry.message_text
        · simp [hb, hd, ih]
        · simp [hb, hd, ih]

/-- C9: the classifier of `main.py` and the classifier of
`extract_configs.py` are extensionally equal. -/
theorem claim_C9_classifiers_extensionally_equal :
    ∀ t : String, MainPy.detect_config_in_text t = ExtractPy.detect_config_in_text t :=
  fun _ => rfl

/-- C3: a body with no direct scheme token and no `http://` match is
classified negative, however many scheme keywords its `https://` links
embed — secure links are never inspected by the link stage. -/
theorem claim_C3_https_links_not_scanned (text : String)
    (hhttps : TG.hasSub "https://".toList (text.toList.map Char.toLower) = true)
    (hprim : TG.primarySearch MainPy.PRIMARY_SCHEMES text.toList = false)
    (hhttp : TG.httpMatches text.toList = []) :
    MainPy.detect_config_in_text text = false := by
  unfold MainPy.detect_config_in_text
  simp only [hprim, hhttp, List.any_nil]
  split <;> rfl

/-- Witness for C3: an `https://` link whose text embeds the scheme
keyword `vmess` is still classified negative. -/
theorem claim_C3_witness :
    (TG.hasSub "https://".toList
        ("check https://t.me/vmessconfigs".toList.map Char.toLower) = true ∧
     TG.primarySearch MainPy.PRIMARY_SCHEMES
        "check https://t.me/vmessconfigs".toList = false ∧
     TG.httpMatches "check https://t.me/vmessconfigs".toList = []) ∧
    MainPy.detect_config_in_text "check https://t.me/vmessconfigs" = false :=
  ⟨⟨by decide, by decide, by decide⟩,
   claim_C3_https_links_not_scanned "check https://t.me/vmessconfigs"
     (by decide) (by decide) (by decide)⟩

/-- C7: view-count extraction — absent element gives no field; empty
visible text gives no field; a non-empty digit residue is converted to an
integer; a non-empty visible text with an empty digit residue is kept as
the original string.  Stated for ASCII visible texts, on which the
embedded `\d` residue and `int` conversion are exactly the source's
(Python's `\d` would additionally keep Unicode decimal digits). -/
theorem claim_C7_view_count_parsing (vt : String)
    (hascii : TG.allAscii vt = true) :
    MainPy.parse_views Option.none = MainPy.Views.null ∧
    (vt = "" → MainPy.parse_views (Option.some vt) = MainPy.Views.null) ∧
    (vt ≠ "" → MainPy.stripNonDigits vt ≠ [] →
        MainPy.parse_views (Option.some vt) =
          MainPy.Views.num (MainPy.digitsToNat (MainPy.stripNonDigits vt))) ∧
    (vt ≠ "" → MainPy.stripNonDigits vt = [] →
        MainPy.parse_views (Option.some vt) = MainPy.Views.str vt) := by
  refine ⟨rfl, ?_, ?_, ?_⟩
  · intro h
    rw [h]
    rfl
  · intro h hd
    have hb : (vt == "") = false := by simp [h]
    have hde : (MainPy.stripNonDigits vt).isEmpty = false := by
      cases hx : MainPy.stripNonDigits vt with
      | nil => exact absurd hx hd
      | cons a l => rfl
    simp [MainPy.parse_views, hb, hde]
  · intro h hd
    have hb : (vt == "") = false := by simp [h]
    simp [MainPy.parse_views, hb, hd]

/-- Witness for C7 at three concrete ASCII visible texts. -/
theorem claim_C7_witness :
    MainPy.parse_views (Option.some "1 234 views") =
      MainPy.Views.num (MainPy.digitsToNat (MainPy.stripNonDigits "1 234 views")) ∧
    MainPy.parse_views (Option.some "soon") = MainPy.Views.str "soon" ∧
    MainPy.parse_views (Option.some "") = MainPy.Views.null :=
  ⟨(claim_C7_view_count_parsing "1 234 views" (by decide)).2.2.1
      (by decide) (by decide),
   (claim_C7_view_count_parsing "soon" (by decide)).2.2.2 (by decide) (by decide),
   (claim_C7_view_count_parsing "" (by decide)).2.1 rfl⟩

/-- C4: writing a non-empty retained set fully replaces the channel's
output file, an empty retained set leaves no file at the channel's path,
and no other path is touched. -/
theorem claim_C4_output_file_lifecycle (fs : MainPy.DirState)
    (raws_dir base : String) (items : List MainPy.ClassifiedItem) :
    (items ≠ [] →
        MainPy.write_filtered_file fs raws_dir base items
            (MainPy.out_path raws_dir base) = Option.some items) ∧
    (items = [] →
        MainPy.write_filtered_file fs raws_dir base items
            (MainPy.out_path raws_dir base) = Option.none) ∧
    (∀ q, q ≠ MainPy.out_path raws_dir base →
        MainPy.write_filtered_file fs raws_dir base items q = fs q) := by
  unfold MainPy.write_filtered_file
  refine ⟨?_, ?_, ?_⟩
  · intro hne
    have hemp : items.isEmpty = false := by
      cases items with
      | nil => exact absurd rfl hne
      | cons a l => rfl
    simp [hemp]
  · intro heq
    subst heq
    simp only [List.isEmpty_nil, if_true]
    cases hfs : fs (MainPy.out_path raws_dir base) with
    | none => exact hfs
    | some v => simp [hfs]
  · intro q hq
    have hbq : (q == MainPy.out_path raws_dir base) = false := by simp [hq]
    by_cases hemp : items.isEmpty
    · simp only [hemp, if_true]
      cases hfs : fs (MainPy.out_path raws_dir base) with
      | none => rfl
      | some v => simp [hfs, hbq]
    · simp [hemp, hbq]

/-- Witness for C4: with a concrete one-file directory, a non-empty write
replaces the file, an empty run deletes it, and an unrelated path is
untouched. -/
theorem claim_C4_witness :
    ([MainPy.anItem] ≠ [] ∧
      MainPy.write_filtered_file MainPy.aDir "raws" "a" [MainPy.anItem]
          (MainPy.out_path "raws" "a") = Option.some [MainPy.anItem]) ∧
    (MainPy.write_filtered_file MainPy.aDir "raws" "a" []
        (MainPy.out_path "raws" "a") = Option.none) ∧
    ("raws/b.json" ≠ MainPy.out_path "raws" "a" ∧
      MainPy.write_filtered_file MainPy.aDir "raws" "a" [] "raws/b.json" =
        MainPy.aDir "raws/b.json") :=
  ⟨⟨by decide,
    (claim_C4_output_file_lifecycle MainPy.aDir "raws" "a" [MainPy.anItem]).1
      (by decide)⟩,
   (claim_C4_output_file_lifecycle MainPy.aDir "raws" "a" []).2.1 rfl,
   ⟨by decide,
    (claim_C4_output_file_lifecycle MainPy.aDir "raws" "a" []).2.2
      "raws/b.json" (by decide)⟩⟩

namespace TG

theorem leadsWith_nil (p : List Char) (hp : p ≠ []) : leadsWith p [] = false := by
  cases p with
  | nil => exact absurd rfl hp
  | cons a ps => rfl

theorem scheme_pat_ne_nil (s : String) : (s ++ "://").toList ≠ [] := by
  intro h
  have hlen : (s ++ "://").length = 0 := by
    have := congrArg List.length h
    exact this
  rw [String.length_append] at hlen
  have h3 : ("://" : String).length = 3 := rfl
  rw [h3] at hlen
  omega

theorem schemeAt_nil (schemes : List String) : schemeAt schemes [] = false := by
  unfold schemeAt
  rw [List.any_eq_false]
  intro s _
  unfold hereCI
  rw [List.take_nil, List.map_nil, leadsWith_nil _ (scheme_pat_ne_nil s)]
  exact Bool.false_ne_true

theorem prevAt_cons (c : Char) (cs : List Char) (j : Nat) :
    prevAt (Option.some c) cs j = (c :: cs).get? j := by
  cases j with
  | zero => rfl
  | succ k => rfl

theorem bOK_of_isAsciiNonWord (o : Option Char)
    (h : Option.all isAsciiNonWord o = true) : bOK o = true := by
  cases o with
  | none => rfl
  | some c =>
    have hc : isAsciiNonWord c = true := h
    unfold isAsciiNonWord at hc
    rw [Bool.and_eq_true] at hc
    exact hc.2

theorem primaryAux_of_occur (schemes : List String) :
    ∀ (cs : List Char) (prev : Option Char) (i : Nat),
      bOK (prevAt prev cs i) = true →
      schemeAt schemes (cs.drop i) = true →
      primaryAux schemes prev cs = true := by
  intro cs
  induction cs with
  | nil =>
    intro prev i _ hocc
    rw [List.drop_nil, schemeAt_nil] at hocc
    exact Bool.noConfusion hocc
  | cons c cs' ih =>
    intro prev i hb hocc
    cases i with
    | zero =>
      rw [List.drop_zero] at hocc
      have hbp : bOK prev = true := hb
      simp [primaryAux, hbp, hocc]
    | succ j =>
      have hb' : bOK (prevAt (Option.some c) cs' j) = true := by
        rw [prevAt_cons]
        exact hb
      have hocc' : schemeAt schemes (cs'.drop j) = true := hocc
      simp [primaryAux, ih (Option.some c) j hb' hocc']

end TG

/-- C1 counterexample: `"xvmess://a"` contains the allow-list token
`vmess` immediately followed by `://`, yet the classifier returns
negative, because `PRIMARY_RX` requires a word boundary (`\b`) before the
scheme and the token here is preceded by the word character `x`. -/
theorem claim_C1_counterexample :
    (∃ s ∈ MainPy.PRIMARY_SCHEMES,
        TG.hasSub (s ++ "://").toList ("xvmess://a".toList.map Char.toLower) = true) ∧
    MainPy.detect_config_in_text "xvmess://a" = false := by
  constructor
  · exact ⟨"vmess", by decide, by decide⟩
  · decide

/-- C1 (amended): for every body in which an allow-list scheme token
immediately followed by `://` occurs (case-insensitively) at a position
that lies at the start of the text or immediately after an ASCII
non-word character — a position that is a `\b` word boundary under the
Unicode-aware reading of the source as well — the classifier returns
positive, regardless of the surrounding text.  A token occurrence
immediately preceded by a word character is not matched
(`claim_C1_counterexample`). -/
theorem claim_C1_scheme_token_at_boundary (text s : String) (i : Nat)
    (hs : s ∈ MainPy.PRIMARY_SCHEMES)
    (hocc : TG.hereCI (s ++ "://").toList (text.toList.drop i) = true)
    (hb : Option.all TG.isAsciiNonWord (TG.prevAt Option.none text.toList i) = true) :
    MainPy.detect_config_in_text text = true := by
  have hocc' : TG.schemeAt MainPy.PRIMARY_SCHEMES (text.toList.drop i) = true := by
    unfold TG.schemeAt
    rw [List.any_eq_true]
    exact ⟨s, hs, hocc⟩
  have hp : TG.primarySearch MainPy.PRIMARY_SCHEMES text.toList = true :=
    TG.primaryAux_of_occur MainPy.PRIMARY_SCHEMES text.toList Option.none i
      (TG.bOK_of_isAsciiNonWord _ hb) hocc'
  have hne : text.toList.isEmpty = false := by
    cases h : text.toList with
    | nil =>
      rw [h, List.drop_nil] at hocc
      unfold TG.hereCI at hocc
      rw [List.take_nil, List.map_nil,
        TG.leadsWith_nil _ (TG.scheme_pat_ne_nil s)] at hocc
      exact Bool.noConfusion hocc
    | cons a l => rfl
  unfold MainPy.detect_config_in_text
  simp only [hne, Bool.false_eq_true, if_false]
  rw [hp]
  simp

/-- Witness for the amended C1: `vmess://` at position 5 of
`"join vmess://abc now"`, preceded by a space. -/
theorem claim_C1_witness :
    (("vmess" : String) ∈ MainPy.PRIMARY_SCHEMES ∧
     TG.hereCI ("vmess" ++ "://").toList ("join vmess://abc now".toList.drop 5) = true ∧
     Option.all TG.isAsciiNonWord
       (TG.prevAt Option.none "join vmess://abc now".toList 5) = true) ∧
    MainPy.detect_config_in_text "join vmess://abc now" = true :=
  ⟨⟨by decide, by decide, by decide⟩,
   claim_C1_scheme_token_at_boundary "join vmess://abc now" "vmess" 5
     (by decide) (by decide) (by decide)⟩

/-- C6: if any `http://` match's URL text contains (case-insensitively)
one of the allow-list scheme names — no `://` required — the classifier
returns positive.  (The URL-keyword list spells `hysteria` where the
allow-list has `hysteria2`, so every allow-list keyword occurrence still
matches.)  Stated for ASCII bodies, on which the embedded match set of
`HTTP_RX` — its `\b` boundary and the `[^\s'"<>]` run — is exactly the
source's. -/
theorem claim_C6_http_url_contains_scheme (text : String) (m : Nat × List Char)
    (s : String)
    (hascii : TG.allAscii text = true)
    (hm : m ∈ TG.httpMatches text.toList)
    (hs : s ∈ MainPy.PRIMARY_SCHEMES)
    (hk : TG.hasSub s.toList (m.2.map Char.toLower) = true) :
    MainPy.detect_config_in_text text = true := by
  have hkw : TG.keywordSearch MainPy.SCHEME_KEYWORDS m.2 = true := by
    unfold TG.keywordSearch
    rw [List.any_eq_true]
    simp only [MainPy.PRIMARY_SCHEMES, List.mem_cons, List.mem_singleton,
      List.not_mem_nil, or_false] at hs
    rcases hs with rfl | rfl | rfl | rfl | rfl | rfl | rfl
    · exact ⟨"vmess", by decide, hk⟩
    · exact ⟨"ss", by decide, hk⟩
    · exact ⟨"socks", by decide, hk⟩
    · exact ⟨"vless", by decide, hk⟩
    · exact ⟨"trojan", by decide, hk⟩
    · exact ⟨"wireguard", by decide, hk⟩
    · refine ⟨"hysteria", by decide, ?_⟩
      have h2 : ("hysteria2" : String).toList = "hysteria".toList ++ ['2'] := by decide
      exact TG.hasSub_of_append _ _ _ (h2 ▸ hk)
  have hne : text.toList.isEmpty = false := by
    cases h : text.toList with
    | nil =>
      rw [h] at hm
      exact absurd hm (by simp [TG.httpMatches, TG.httpAux])
    | cons a l => rfl
  unfold MainPy.detect_config_in_text
  simp only [hne, Bool.false_eq_true, if_false]
  cases hp : TG.primarySearch MainPy.PRIMARY_SCHEMES text.toList with
  | true => simp
  | false =>
    simp only [Bool.false_eq_true, if_false]
    rw [List.any_eq_true]
    refine ⟨m, hm, ?_⟩
    simp [hkw]

/-- Witness for C6: the URL `http://a.b/vmess` embeds `vmess` without
`://`. -/
theorem claim_C6_witness :
    (TG.allAscii "go http://a.b/vmess now" = true ∧
     (3, "http://a.b/vmess".toList) ∈ TG.httpMatches "go http://a.b/vmess now".toList ∧
     ("vmess" : String) ∈ MainPy.PRIMARY_SCHEMES ∧
     TG.hasSub "vmess".toList ("http://a.b/vmess".toList.map Char.toLower) = true) ∧
    MainPy.detect_config_in_text "go http://a.b/vmess now" = true :=
  ⟨⟨by decide, by decide, by decide, by decide⟩,
   claim_C6_http_url_contains_scheme "go http://a.b/vmess now"
     (3, "http://a.b/vmess".toList) "vmess" (by decide) (by decide) (by decide)
     (by decide)⟩

/-- Sanity checks of the embedded classifier against the concrete
scenarios of the specification: a direct scheme URI, a plain link without
any signal, a link carrying a long base64 payload, the empty body, a
direct scheme in upper case, a keyword within the ±50-character context
window, and one concrete `HTTP_RX` match with its span. -/
theorem classifier_scenarios :
    MainPy.detect_config_in_text "join vmess://abc123 now" = true ∧
    MainPy.detect_config_in_text "see http://example.com/page" = false ∧
    MainPy.detect_config_in_text
      "config: http://x.co/dl?id=QWxhZGRpbjpvcGVuIHNlc2FtZQQWxhZGRpbjpvcGVuIHNlc2FtZQ==" = true ∧
    MainPy.detect_config_in_text "" = false ∧
    MainPy.detect_config_in_text "get SS://abc" = true ∧
    MainPy.detect_config_in_text "vmess here http://a.com/x" = true ∧
    TG.httpMatches "go http://a.b/c now".toList = [(3, "http://a.b/c".toList)] :=
  ⟨by decide, by decide, by decide, by decide, by decide, by decide, by decide⟩
